import Mathlib

/-!
Shallow embedding of `src/main.cpp` (namespace `tp`): a log fan-out core.
A `component` holds an ordered list of sink (logger) kinds and a message
builder with a fixed CAN identifier; `process` builds one message per sink,
in registration order, and invokes that sink's `log`. Each sink's `log`
calls `to_string(Level)`, whose `assert` aborts the program for a level at
or beyond the sentinel `count`; the abort path is modelled as `none`
throughout.
-/

namespace tp

/-- Constant `max_data_size` from the source: capacity of a CAN data frame. -/
def max_data_size : Nat := 6

/-- The source's `enum class log_level { info, warning, error, fatal, count }`. -/
inductive log_level : Type
  | info
  | warning
  | error
  | fatal
  | count
deriving DecidableEq, Fintype

/-- The underlying integer of a `log_level` value (`static_cast<std::size_t>`). -/
def log_level.toNat : log_level → Nat
  | .info => 0
  | .warning => 1
  | .error => 2
  | .fatal => 3
  | .count => 4

/-- The `names` array inside `tp::to_string`. -/
def level_names : List String := ["info", "warning", "error", "fatal"]

/-- Function `tp::to_string`: `assert(level < log_level::count)` followed by an
index into `names`. The assert-failure (abort) path is modelled as `none`. -/
def to_string (level : log_level) : Option String :=
  if h : level.toNat < level_names.length then
    some (level_names.get ⟨level.toNat, h⟩)
  else
    none

/-- Structure `can_logger::message`: `{ can_id_t can_id; can_data_t data; }`.
Here `can_data_t` is `std::array<std::size_t, 6>`, modelled as a list of
naturals (always of length 6 as constructed by the builder). -/
structure can_message : Type where
  can_id : Int
  data : List Nat
deriving DecidableEq

/-- Structure `file_logger::message<Format, Args...>`: a format template plus
the argument values bound at construction (all `std::size_t` here). -/
structure file_message : Type where
  format : String
  args : List Nat
deriving DecidableEq

/-- The closed set of logger (sink) kinds defined in the source. -/
inductive logger_kind : Type
  | can_logger
  | file_logger
deriving DecidableEq

/-- A sink message is exactly one of the two shapes of the source. -/
inductive sink_message : Type
  | can (msg : can_message)
  | file (msg : file_message)
deriving DecidableEq

/-- The fixed format template used by `message_builder::create_message` for
the file logger: `"input data: length: {}, width: {}, height: {}"`. -/
def file_format : String :=
  "input data: length: \x7b\x7d, width: \x7b\x7d, height: \x7b\x7d"

/-- Structure `tp::input_data`: `{ std::size_t length, width, height; }`. -/
structure input_data : Type where
  length : Nat
  width : Nat
  height : Nat
deriving DecidableEq

/-- Static member `message_builder<CanId>::create_message<Logger>(data)`: for
`can_logger`, a CAN frame `{CanId, can_data_t{length, width, height}}` (the
three unused slots of the 6-slot `std::array` are value-initialised to 0); for
`file_logger`, a format message carrying `[length, width, height]` against
`file_format`. The `Logger` type parameter ranges over the closed
`logger_kind`; the `static_assert` branch for unknown kinds is unreachable. -/
def message_builder.create_message (CanId : Int) (kind : logger_kind)
    (data : input_data) : sink_message :=
  match kind with
  | .can_logger =>
      .can ⟨CanId, [data.length, data.width, data.height, 0, 0, 0]⟩
  | .file_logger =>
      .file ⟨file_format, [data.length, data.width, data.height]⟩

/-- Substitution in the style of `std::format`: each `\x7b\x7d` placeholder in
the character stream is replaced by the decimal rendering of the next
argument. -/
def substFmt : List Char → List Nat → List Char
  | [], _ => []
  | '\x7b' :: '\x7d' :: rest, a :: as => (Nat.repr a).data ++ substFmt rest as
  | '\x7b' :: '\x7d' :: rest, [] => '\x7b' :: '\x7d' :: substFmt rest []
  | c :: rest, as => c :: substFmt rest as

/-- Rendering of a file-logger message: substitute its argument values into
its format template, in order (the body of `std::println(Format, args...)`). -/
def file_message.render (msg : file_message) : String :=
  String.mk (substFmt msg.format.data msg.args)

/-- One observable sink invocation: which sink was invoked, at which level,
with which message. -/
structure emission : Type where
  kind : logger_kind
  level : log_level
  msg : sink_message
deriving DecidableEq

/-- Member `can_logger::log<Level>(msg)`: renders `to_string(Level)` into the
output line — aborting (`none`) when the assert inside `to_string` fires —
and emits the frame message at `Level`. -/
def can_logger.log (Level : log_level) (msg : can_message) : Option emission :=
  match to_string Level with
  | some _ => some ⟨.can_logger, Level, .can msg⟩
  | none => none

/-- Member `file_logger::log<Level, Format, Args...>(msg)`: renders
`to_string(Level)` into the output line — aborting (`none`) when the assert
inside `to_string` fires — and emits the formatted message at `Level`. -/
def file_logger.log (Level : log_level) (msg : file_message) : Option emission :=
  match to_string Level with
  | some _ => some ⟨.file_logger, Level, .file msg⟩
  | none => none

/-- The body of the inner lambda of `tp::log` for one logger: build the
message for that logger's kind via the builder, then invoke that logger's
`log<Level>` member on it (which may abort). -/
def dispatch_to (Level : log_level) (data : input_data) (CanId : Int)
    (kind : logger_kind) : Option emission :=
  match kind, message_builder.create_message CanId kind data with
  | .can_logger, .can m => can_logger.log Level m
  | .file_logger, .file m => file_logger.log Level m
  | k, m => some ⟨k, Level, m⟩

/-- Free function `tp::log<Level>(data, builder, loggers)`: the fold
expression `(log(loggers_), ...)` applies `dispatch_to` to each logger in
registration order; if a sink invocation aborts, the program dies (`none`)
and no further sink runs. -/
def log (Level : log_level) (data : input_data) (CanId : Int) :
    List logger_kind → Option (List emission)
  | [] => some []
  | k :: ks =>
      match dispatch_to Level data CanId k with
      | some e => Option.map (fun es => e :: es) (log Level data CanId ks)
      | none => none

/-- Static constant `component<Loggers...>::can_id`: the fixed compile-time
CAN identifier shared by all instantiations. -/
def component.can_id : Int := 10

/-- Class `tp::component<Loggers...>`: the ordered loggers bound at
construction (its message builder is stateless and carries no data). -/
structure component : Type where
  loggers : List logger_kind
deriving DecidableEq

/-- Member `component::process(input)`: dispatch at `log_level::info` through
the fixed builder to all registered loggers. The (unchanged) component state
is returned alongside the emissions to make the frame condition explicit. -/
def component.process (c : component) (input : input_data) :
    component × Option (List emission) :=
  (c, log log_level.info input component.can_id c.loggers)

/-- Repeated `process` calls, threading the component state through; an abort
in any call kills the whole run. -/
def component.run (c : component) :
    List input_data → Option (component × List (List emission))
  | [] => some (c, [])
  | i :: is =>
      match (c.process i).2 with
      | some es => Option.map (fun r => (r.1, es :: r.2)) ((c.process i).1.run is)
      | none => none

/-- The component built in `main`: sinks `[can_logger, file_logger]`. -/
def main_component : component := ⟨[.can_logger, .file_logger]⟩

/-- Helper: the emission one `dispatch_to` step produces at a given valid
level for a given kind. -/
def dispatched (Level : log_level) (data : input_data) (CanId : Int)
    (kind : logger_kind) : emission :=
  ⟨kind, Level, message_builder.create_message CanId kind data⟩

/-- Helper: at a valid level (strictly below the sentinel), `dispatch_to`
does not abort and records exactly the requested kind, the level, and the
message the builder constructs for that kind. -/
theorem dispatch_to_valid (Level : log_level) (data : input_data) (CanId : Int)
    (kind : logger_kind) (h : Level.toNat < log_level.count.toNat) :
    dispatch_to Level data CanId kind = some (dispatched Level data CanId kind) := by
  cases Level <;> cases kind <;> first | rfl | exact absurd h (by decide)

/-- Helper: at an invalid level (the sentinel), `dispatch_to` aborts: the
assert inside `to_string` fires within the sink's `log`. -/
theorem dispatch_to_invalid (Level : log_level) (data : input_data) (CanId : Int)
    (kind : logger_kind) (h : ¬ Level.toNat < log_level.count.toNat) :
    dispatch_to Level data CanId kind = none := by
  cases Level <;> cases kind <;> first | rfl | exact absurd (by decide) h

/-- Helper: at a valid level, one `tp::log` dispatch does not abort and emits
one message per registered logger, in registration order. -/
theorem log_valid (Level : log_level) (data : input_data) (CanId : Int)
    (loggers : List logger_kind) (h : Level.toNat < log_level.count.toNat) :
    log Level data CanId loggers
      = some (loggers.map (dispatched Level data CanId)) := by
  induction loggers with
  | nil => rfl
  | cons k ks ih =>
      simp only [log, dispatch_to_valid Level data CanId k h, ih, Option.map,
        List.map_cons]

/-- Helper: at an invalid level, one `tp::log` dispatch over a nonempty
logger list aborts in the first sink invocation. -/
theorem log_invalid (Level : log_level) (data : input_data) (CanId : Int)
    (loggers : List logger_kind) (h : ¬ Level.toNat < log_level.count.toNat)
    (hne : loggers ≠ []) : log Level data CanId loggers = none := by
  cases loggers with
  | nil => exact absurd rfl hne
  | cons k ks => simp only [log, dispatch_to_invalid Level data CanId k h]

/-- Helper: `process` never aborts (its level `info` is valid) and emits one
message per registered logger, in registration order. -/
theorem process_eq (c : component) (input : input_data) :
    (c.process input).2
      = some (c.loggers.map (dispatched log_level.info input component.can_id)) :=
  log_valid log_level.info input component.can_id c.loggers (by decide)

/-- Helper: the kinds of the per-logger emissions are the loggers themselves. -/
theorem dispatched_map_kind (Level : log_level) (data : input_data) (CanId : Int)
    (loggers : List logger_kind) :
    (loggers.map (dispatched Level data CanId)).map emission.kind = loggers := by
  rw [List.map_map]
  exact List.map_id loggers

/-- Helper: every per-logger emission is at the dispatched level. -/
theorem dispatched_map_level (Level : log_level) (data : input_data) (CanId : Int)
    (loggers : List logger_kind) :
    (loggers.map (dispatched Level data CanId)).map emission.level
      = List.replicate loggers.length Level := by
  induction loggers with
  | nil => rfl
  | cons k ks ih =>
      simp only [List.map_cons, List.length_cons, List.replicate_succ] at ih ⊢
      exact congrArg (List.cons Level) ih

/-- Helper: threading any number of `process` calls never aborts, leaves the
component unchanged, and each round is the per-logger emission list for that
round's input. -/
theorem run_preserves (c : component) (inputs : List input_data) :
    c.run inputs
      = some (c, inputs.map (fun i =>
          c.loggers.map (dispatched log_level.info i component.can_id))) := by
  induction inputs with
  | nil => rfl
  | cons i is ih =>
      have h1 : (c.process i).1 = c := rfl
      simp only [component.run, process_eq c i, h1, ih, Option.map, List.map_cons]

/-- Helper: rendering the fixed three-placeholder template against any three
argument values substitutes their decimal renderings in order. -/
theorem render_file_format (l w h : Nat) :
    (file_message.mk file_format [l, w, h]).render
      = "input data: length: " ++ Nat.repr l ++ ", width: " ++ Nat.repr w
        ++ ", height: " ++ Nat.repr h := by
  apply String.ext
  simp [file_message.render, file_format, substFmt, String.data_append]

end tp

/-- C1: one `process` call aborts nowhere, invokes every registered sink
exactly once, in registration order (the emitted kinds are exactly the
registered loggers), performing exactly N builds and N log calls; repeating
`process` M times yields M rounds, each invoking each sink once in the same
relative order. -/
theorem tp.claims.process_exactly_once_in_order (c : tp.component)
    (input : tp.input_data) :
    ((c.process input).2.map (fun es => es.map tp.emission.kind) = some c.loggers)
    ∧ ((c.process input).2.map List.length = some c.loggers.length)
    ∧ (∀ m : Nat,
        (c.run (List.replicate m input)).map
            (fun r => r.2.map (fun es => es.map tp.emission.kind))
          = some (List.replicate m c.loggers)) := by
  refine ⟨?_, ?_, ?_⟩
  · rw [tp.process_eq c input]
    exact congrArg some (tp.dispatched_map_kind _ input _ c.loggers)
  · rw [tp.process_eq c input]
    simp only [Option.map, List.length_map]
  · intro m
    rw [tp.run_preserves c (List.replicate m input)]
    simp only [Option.map, List.map_replicate]
    exact congrArg (fun l => some (List.replicate m l))
      (tp.dispatched_map_kind tp.log_level.info input tp.component.can_id c.loggers)

/-- C2: for every payload and builder identifier, the frame message for the
can-logger sink has that identifier and a 6-slot field array holding the
payload fields `[length, width, height]` first and the default value 0 in
every trailing slot. -/
theorem tp.claims.frame_message_exact (CanId : Int) (data : tp.input_data) :
    ∃ msg : tp.can_message,
      tp.message_builder.create_message CanId .can_logger data
          = tp.sink_message.can msg
      ∧ msg.can_id = CanId
      ∧ msg.data.length = tp.max_data_size
      ∧ msg.data.take 3 = [data.length, data.width, data.height]
      ∧ msg.data.drop 3 = List.replicate (tp.max_data_size - 3) 0 := by
  exact ⟨⟨CanId, [data.length, data.width, data.height, 0, 0, 0]⟩,
    rfl, rfl, rfl, rfl, rfl⟩

/-- C3: for every payload, the formatted message for the file-logger sink
carries the values `[length, width, height]` in order against the fixed
three-placeholder template, and renders to exactly
`"input data: length: L, width: W, height: H"` with decimal values
substituted in order. -/
theorem tp.claims.formatted_message_exact (CanId : Int) (data : tp.input_data) :
    ∃ msg : tp.file_message,
      tp.message_builder.create_message CanId .file_logger data
          = tp.sink_message.file msg
      ∧ msg.format = tp.file_format
      ∧ msg.args = [data.length, data.width, data.height]
      ∧ msg.render
          = "input data: length: " ++ Nat.repr data.length ++ ", width: "
            ++ Nat.repr data.width ++ ", height: " ++ Nat.repr data.height := by
  exact ⟨⟨tp.file_format, [data.length, data.width, data.height]⟩,
    rfl, rfl, rfl, tp.render_file_format data.length data.width data.height⟩

/-- C4 (counterexample): the level is not a free parameter of
`component::process` chosen per call — `process` takes no level and every
emission it produces is at `info`; in particular its emissions are never at
`warning`. -/
theorem tp.claims.process_level_not_free_counterexample :
    ((tp.main_component.process ⟨1, 2, 3⟩).2.map (fun es => es.map tp.emission.level)
        = some [tp.log_level.info, tp.log_level.info])
    ∧ ¬ ((tp.main_component.process ⟨1, 2, 3⟩).2.map (fun es => es.map tp.emission.level)
        = some [tp.log_level.warning, tp.log_level.warning]) := by
  decide

/-- C4 (amended): the level is a free (compile-time template) parameter of the
generic dispatch routine `tp::log`, but only valid levels are deliverable:
for every level strictly below the sentinel, `tp::log` delivers every sink's
message at that level; at or beyond the sentinel, dispatching to any sink
aborts inside `to_string`'s assert; and `component::process` fixes the
dispatch level to `info` on every call. -/
theorem tp.claims.dispatch_level_free_in_log (Level : tp.log_level)
    (data : tp.input_data) (CanId : Int) (loggers : List tp.logger_kind)
    (c : tp.component) :
    (Level.toNat < tp.log_level.count.toNat →
      (tp.log Level data CanId loggers).map (fun es => es.map tp.emission.level)
        = some (List.replicate loggers.length Level))
    ∧ (¬ Level.toNat < tp.log_level.count.toNat → loggers ≠ [] →
      tp.log Level data CanId loggers = none)
    ∧ ((c.process data).2 = tp.log tp.log_level.info data tp.component.can_id c.loggers) := by
  refine ⟨?_, tp.log_invalid Level data CanId loggers, rfl⟩
  intro h
  rw [tp.log_valid Level data CanId loggers h]
  exact congrArg some (tp.dispatched_map_level Level data CanId loggers)

/-- C4 witness: at the valid level `info` a one-sink dispatch delivers at
`info`; at the sentinel `count` the same dispatch aborts. -/
theorem tp.claims.dispatch_level_free_in_log_witness :
    ((tp.log tp.log_level.info ⟨1, 2, 3⟩ 10 [tp.logger_kind.can_logger]).map
        (fun es => es.map tp.emission.level) = some [tp.log_level.info])
    ∧ (tp.log tp.log_level.count ⟨1, 2, 3⟩ 10 [tp.logger_kind.can_logger] = none) :=
  ⟨(tp.claims.dispatch_level_free_in_log tp.log_level.info ⟨1, 2, 3⟩ 10
      [tp.logger_kind.can_logger] tp.main_component).1 (by decide),
   (tp.claims.dispatch_level_free_in_log tp.log_level.count ⟨1, 2, 3⟩ 10
      [tp.logger_kind.can_logger] tp.main_component).2.1 (by decide) (by decide)⟩

/-- C5: `to_string` returns the canonical lowercase name of each valid level
(strictly below the sentinel `count`), the mapping is injective on the valid
domain, and at or beyond the sentinel bound the call aborts (modelled as
`none`) rather than substituting a name. -/
theorem tp.claims.level_name_injective_abort :
    (tp.to_string .info = some "info")
    ∧ (tp.to_string .warning = some "warning")
    ∧ (tp.to_string .error = some "error")
    ∧ (tp.to_string .fatal = some "fatal")
    ∧ (∀ l₁ l₂ : tp.log_level,
        l₁.toNat < tp.log_level.count.toNat →
        l₂.toNat < tp.log_level.count.toNat →
        tp.to_string l₁ = tp.to_string l₂ → l₁ = l₂)
    ∧ (∀ l : tp.log_level,
        ¬ l.toNat < tp.log_level.count.toNat → tp.to_string l = none) := by
  decide

/-- C5 witness: the injectivity and abort branches applied at concrete
levels. -/
theorem tp.claims.level_name_injective_abort_witness :
    tp.log_level.info = tp.log_level.info
    ∧ tp.to_string tp.log_level.count = none :=
  ⟨tp.claims.level_name_injective_abort.2.2.2.2.1 tp.log_level.info
      tp.log_level.info (by decide) (by decide) rfl,
   tp.claims.level_name_injective_abort.2.2.2.2.2 tp.log_level.count (by decide)⟩

/-- C6: end to end, the `main` component (sinks `[can_logger, file_logger]`,
identifier 10) processing payload `{1, 2, 3}` produces exactly two emissions
in order: a can-logger emission at `info` with message `{10, [1,2,3,0,0,0]}`,
then a file-logger emission at `info` whose substituted text is
`"input data: length: 1, width: 2, height: 3"`. -/
theorem tp.claims.end_to_end_scenario :
    (tp.main_component.loggers = [.can_logger, .file_logger])
    ∧ ((tp.main_component.process ⟨1, 2, 3⟩).2 =
        some [⟨.can_logger, .info, .can ⟨10, [1, 2, 3, 0, 0, 0]⟩⟩,
              ⟨.file_logger, .info, .file ⟨tp.file_format, [1, 2, 3]⟩⟩])
    ∧ ((tp.file_message.mk tp.file_format [1, 2, 3]).render
        = "input data: length: 1, width: 2, height: 3") := by
  decide

/-- C7: message construction is pure and total — for every payload and
identifier, each of the two known sink kinds has a construction path that
always returns a message of exactly the shape that kind expects, and the sink
kind set is closed (an unknown kind cannot be formed, mirroring the
`static_assert` build-time rejection). -/
theorem tp.claims.create_message_total_shaped (CanId : Int)
    (data : tp.input_data) (kind : tp.logger_kind) :
    (∃ m, tp.message_builder.create_message CanId .can_logger data
        = tp.sink_message.can m)
    ∧ (∃ m, tp.message_builder.create_message CanId .file_logger data
        = tp.sink_message.file m)
    ∧ (kind = .can_logger ∨ kind = .file_logger) := by
  refine ⟨⟨_, rfl⟩, ⟨_, rfl⟩, ?_⟩
  cases kind
  · exact Or.inl rfl
  · exact Or.inr rfl

/-- C8: a component's state is never mutated by `process`: any sequence of
calls completes with the component identical to the constructed one, and
every round equals what a fresh call on the original state produces. -/
theorem tp.claims.dispatcher_state_immutable (c : tp.component)
    (inputs : List tp.input_data) :
    ∃ rounds : List (List tp.emission),
      c.run inputs = some (c, rounds)
      ∧ rounds.map some = inputs.map (fun i => (c.process i).2) := by
  refine ⟨inputs.map (fun i =>
      c.loggers.map (tp.dispatched tp.log_level.info i tp.component.can_id)),
    tp.run_preserves c inputs, ?_⟩
  rw [List.map_map]
  exact List.map_congr_left (fun i _ => (tp.process_eq c i).symm)

/-- C9: a component with an empty sink set is accepted, and `process` on it
performs zero builds and zero log calls (no emissions, no abort) and leaves
the component unchanged. -/
theorem tp.claims.empty_sink_set_accepted (input : tp.input_data) :
    (((tp.component.mk []).process input).2 = some [])
    ∧ (((tp.component.mk []).process input).1 = tp.component.mk []) :=
  ⟨rfl, rfl⟩

/-- C10: every frame (CAN) message built during any component's `process`
call carries the fixed compile-time identifier 10, regardless of the sink set
and the payload. -/
theorem tp.claims.can_identifier_always_ten (c : tp.component)
    (input : tp.input_data) (es : List tp.emission) (e : tp.emission)
    (m : tp.can_message) (hp : (c.process input).2 = some es) (he : e ∈ es)
    (hm : e.msg = tp.sink_message.can m) : m.can_id = 10 := by
  rw [tp.process_eq c input] at hp
  injection hp with hes
  subst hes
  rw [List.mem_map] at he
  obtain ⟨k, _, rfl⟩ := he
  cases k
  · simp only [tp.dispatched, tp.message_builder.create_message,
      tp.component.can_id] at hm
    injection hm with h
    exact h ▸ rfl
  · simp only [tp.dispatched, tp.message_builder.create_message] at hm
    exact absurd hm (by simp)

/-- C10 witness: the first emission of the `main` component at payload
`{1, 2, 3}` is a CAN message, and its identifier is 10. -/
theorem tp.claims.can_identifier_always_ten_witness :
    (tp.can_message.mk 10 [1, 2, 3, 0, 0, 0]).can_id = 10 :=
  tp.claims.can_identifier_always_ten tp.main_component ⟨1, 2, 3⟩
    [⟨.can_logger, .info, .can ⟨10, [1, 2, 3, 0, 0, 0]⟩⟩,
     ⟨.file_logger, .info, .file ⟨tp.file_format, [1, 2, 3]⟩⟩]
    ⟨.can_logger, .info, .can ⟨10, [1, 2, 3, 0, 0, 0]⟩⟩
    ⟨10, [1, 2, 3, 0, 0, 0]⟩ (by decide) (by decide) rfl
